import Mathlib

/-!
Shallow embedding of the concurrent stack orchestrator of `sst-cdk`
(`packages/aws-cdk/lib/cdk-toolkit.ts`, `parallelDeploy` and its helpers
`deployStacks`, `updateDeployStatuses`, `skipUndeployedStacks`,
`getStackEvents`, `isRetryableException`, `isBootstrapException`).

Conventions of the embedding:
* JavaScript timestamps (`Date.now()`, event `Timestamp`s) are `Int`
  milliseconds.  `Date.setSeconds(getSeconds() - 5)` subtracts exactly
  5000 ms.
* Optional / possibly-`undefined` JavaScript values are `Option`s.
* JavaScript string truthiness (`undefined` and `""` are falsy) is made
  explicit where the source relies on it (`optStrTruthy`, `jsOr`).
* The concurrent `Promise.all` batches mutate disjoint per-stack state and
  are embedded as a sequential left fold over the batch, one completed
  asynchronous callback at a time; `skipUndeployedStacks`, which the source
  calls on the shared array from inside a callback, is applied to the whole
  list at the point of the corresponding callback.
* The calls into the external provisioning engine (`this.deploy`, the
  bootstrap run, `deployStatus`, `describeStackEvents`) are oracles passed
  in as explicit arguments: a returned value or a thrown error value.
-/

namespace SstCdk

/-- Status strings stored in `stackState.status` by `parallelDeploy`. -/
inductive Status where
  | pending
  | deploying
  | succeeded
  | unchanged
  | failed
  | skipped
deriving DecidableEq, Repr

/-- One reconciled event recorded on `stackState.events`
(the object literal pushed in `getStackEvents`). -/
structure StackEvent where
  eventId : String
  timestamp : Int
  resourceType : Option String
  resourceStatus : Option String
  resourceStatusReason : Option String
  logicalResourceId : Option String
deriving DecidableEq, Repr

/-- One raw provider event as returned by `describeStackEvents`
(AWS CloudFormation field casing). -/
structure RawEvent where
  EventId : String
  Timestamp : Int
  ResourceType : Option String
  ResourceStatus : Option String
  ResourceStatusReason : Option String
  LogicalResourceId : Option String
deriving DecidableEq, Repr

/-- The per-stack mutable state of `parallelDeploy`
(interface `StackState`, minus the non-serializable `stack` handle). -/
structure StackState where
  name : String
  dependencies : List String
  status : Status
  account : Option String := none
  region : Option String := none
  startedAt : Option Int := none
  endedAt : Option Int := none
  events : Option (List StackEvent) := none
  eventsLatestErrorMessage : Option String := none
  eventsFirstEventAt : Option Int := none
  errorMessage : Option String := none
  outputs : Option (List (String × String)) := none
deriving DecidableEq, Repr

/-- A thrown JavaScript error value, as far as the orchestrator inspects it
(`e.code`, `e.message`). -/
structure JsError where
  code : Option String := none
  message : String := ""
deriving DecidableEq, Repr

/-- `isRetryableException` from `cdk-toolkit.ts`. -/
def isRetryableException (e : JsError) : Bool :=
  (e.code == some "ThrottlingException" && e.message == "Rate exceeded")
    || (e.code == some "Throttling" && e.message == "Rate exceeded")
    || (e.code == some "TooManyRequestsException" && e.message == "Too Many Requests")
    || e.code == some "OperationAbortedException"
    || e.code == some "TimeoutError"
    || e.code == some "NetworkingError"

/-- `isBootstrapException` from `cdk-toolkit.ts`: message starts with the
fixed bootstrap-needed prefix (an empty message is falsy in the source's
`e.message && ...` guard, and also fails `startsWith`). -/
def isBootstrapException (e : JsError) : Bool :=
  e.message.startsWith "This stack uses assets, so the toolkit stack must be deployed to the environment"

/-- JavaScript truthiness of an optional string: `undefined` and `""` are falsy. -/
def optStrTruthy : Option String → Bool
  | none => false
  | some s => !(s == "")

/-- JavaScript `a || b` for an optional string `a` and a string `b`. -/
def jsOr (a : Option String) (b : String) : String :=
  match a with
  | none => b
  | some s => if s == "" then b else s

/-! ### Event reconciliation (`getStackEvents`) -/

/-- The predicate of `firstRelevantEvent` in `getStackEvents`: a "Stack"
event whose status is an in-progress create, update or delete. -/
def matchesFirstRelevant (e : RawEvent) : Bool :=
  e.ResourceType == some "AWS::CloudFormation::Stack"
    && (e.ResourceStatus == some "UPDATE_IN_PROGRESS"
      || e.ResourceStatus == some "CREATE_IN_PROGRESS"
      || e.ResourceStatus == some "DELETE_IN_PROGRESS")

/-- JavaScript `s.endsWith(suf)`: `suf` is a suffix of `s`, expressed on
the character sequences (identical to the JS semantics on these ASCII
status strings). -/
def jsEndsWith (s suf : String) : Bool :=
  suf.data.isSuffixOf s.data

/-- The failure test applied to an event status in `getStackEvents`:
`eventStatus && (eventStatus.endsWith('FAILED') ||
eventStatus.endsWith('ROLLBACK_IN_PROGRESS'))` (an empty status string is
falsy and passes neither suffix test). -/
def isFailureStatus : Option String → Bool
  | none => false
  | some s => jsEndsWith s "FAILED" || jsEndsWith s "ROLLBACK_IN_PROGRESS"

/-- Conversion of a raw provider event into the recorded shape
(the object literal pushed onto `events`). -/
def convertRawEvent (e : RawEvent) : StackEvent :=
  { eventId := e.EventId
    timestamp := e.Timestamp
    resourceType := e.ResourceType
    resourceStatus := e.ResourceStatus
    resourceStatusReason := e.ResourceStatusReason
    logicalResourceId := e.LogicalResourceId }

/-- The two fields of `stackState` that the reconciliation loop threads
through: the growing `events` array and `eventsLatestErrorMessage`. -/
structure EvAcc where
  events : List StackEvent
  latestErr : Option String
deriving DecidableEq, Repr

/-- `eventInRange` in `getStackEvents`: the watermark is set and is at or
before the event timestamp. -/
def eventInRange (w : Option Int) (e : RawEvent) : Bool :=
  match w with
  | none => false
  | some t => decide (t ≤ e.Timestamp)

/-- One iteration of the `stackEvents.reverse().forEach(...)` loop body in
`getStackEvents`, with watermark `w`. -/
def processEvent (w : Option Int) (acc : EvAcc) (e : RawEvent) : EvAcc :=
  let eventNotLogged := acc.events.all (fun loggedEvent => !(loggedEvent.eventId == e.EventId))
  if eventInRange w e && eventNotLogged then
    let latestErr :=
      if isFailureStatus e.ResourceStatus && !optStrTruthy acc.latestErr then
        e.ResourceStatusReason
      else acc.latestErr
    { events := acc.events ++ [convertRawEvent e], latestErr := latestErr }
  else acc

/-- The watermark value after the `firstRelevantEvent` step of
`getStackEvents`: 5 seconds before the first matching raw event when one
exists, otherwise the previously stored watermark. -/
def nextWatermark (st : StackState) (stackEvents : List RawEvent) : Option Int :=
  match stackEvents.find? matchesFirstRelevant with
  | some e => some (e.Timestamp - 5000)
  | none => st.eventsFirstEventAt

/-- `getStackEvents` from `cdk-toolkit.ts`: reconcile the fetched raw event
log `stackEvents` into `st.events`, maintaining `eventsFirstEventAt` and
`eventsLatestErrorMessage`. -/
def getStackEvents (st : StackState) (stackEvents : List RawEvent) : StackState :=
  let w := nextWatermark st stackEvents
  let acc0 : EvAcc := { events := st.events.getD [], latestErr := st.eventsLatestErrorMessage }
  let acc := stackEvents.reverse.foldl (processEvent w) acc0
  { st with
    eventsFirstEventAt := w
    events := some acc.events
    eventsLatestErrorMessage := acc.latestErr }

/-! ### Shared list-level operations of `parallelDeploy` -/

/-- The per-element effect of `skipUndeployedStacks`: a `pending` stack
becomes `skipped`, every other stack is untouched. -/
def skipOne (st : StackState) : StackState :=
  if st.status == Status.pending then { st with status := Status.skipped } else st

/-- `skipUndeployedStacks` from `parallelDeploy`: every currently `pending`
stack in the shared array is marked `skipped`. -/
def skipUndeployedStacks (ss : List StackState) : List StackState :=
  ss.map skipOne

/-- In-place mutation of the one stack object named `nm` in the shared
`stackStates` array (the JS callbacks mutate their captured element). -/
def updateStack (ss : List StackState) (nm : String) (f : StackState → StackState) :
    List StackState :=
  ss.map (fun st => if st.name == nm then f st else st)

/-- The `statusesByStackName` snapshot taken at the top of `deployStacks`
(`forEach` object assignment: the last stack with a given name wins). -/
def statusesByStackName (ss : List StackState) (nm : String) : Option Status :=
  (ss.reverse.find? (fun st => st.name == nm)).map (·.status)

/-! ### The scheduler wave (`deployStacks`) -/

/-- The value returned by one `this.deploy(options)` call in async mode:
`{ status, account, region, outputs }`. -/
structure DeployResult where
  status : String
  account : Option String := none
  region : Option String := none
  outputs : Option (List (String × String)) := none
deriving DecidableEq, Repr

/-- Outcome of the awaited `this.deploy` call: a result or a thrown error. -/
inductive DeployTry where
  | ok (r : DeployResult)
  | err (e : JsError)
deriving DecidableEq, Repr

/-- Outcome of the awaited bootstrap run, when one is attempted. -/
inductive BootstrapTry where
  | ok
  | err (e : JsError)
deriving DecidableEq, Repr

/-- The field updates applied to a stack when its `this.deploy` call
returns `r` (lines 317-343 of `cdk-toolkit.ts`): `startedAt`, `account`,
`region` and `outputs` are always written, then the status branch runs. -/
def applyDeployResult (now : Int) (r : DeployResult) (st : StackState) : StackState :=
  let st := { st with
    startedAt := some now
    account := r.account
    region := r.region
    outputs := r.outputs }
  if r.status == "unchanged" then
    { st with status := Status.unchanged, endedAt := st.startedAt }
  else if r.status == "no_resources" then
    { st with
      status := Status.failed
      endedAt := st.startedAt
      errorMessage := some ("The " ++ st.name ++ " stack contains no resources.") }
  else if r.status == "deploying" then
    { st with status := Status.deploying }
  else
    { st with
      status := Status.failed
      endedAt := st.startedAt
      errorMessage := some ("The " ++ st.name ++ " stack failed to deploy.") }

/-- The field updates applied to a stack on a non-retryable thrown error
(lines 371-374 and 381-384 of `cdk-toolkit.ts`). -/
def applyDeployError (now : Int) (msg : String) (st : StackState) : StackState :=
  { st with
    status := Status.failed
    startedAt := some now
    endedAt := some now
    errorMessage := some msg }

/-- Whether the status branch for a returned deploy result is one of the two
failing branches (which both call `skipUndeployedStacks`). -/
def deployResultFails (r : DeployResult) : Bool :=
  !(r.status == "unchanged") && !(r.status == "deploying")

/-- Whether the callback for one stack takes a branch that transitions the
stack to `failed` and calls `skipUndeployedStacks`. -/
def deployTryFails (dtr : DeployTry) (btr : BootstrapTry) : Bool :=
  match dtr with
  | DeployTry.ok r => deployResultFails r
  | DeployTry.err e =>
    if isRetryableException e then false
    else if isBootstrapException e then
      match btr with
      | BootstrapTry.ok => false
      | BootstrapTry.err be => !isRetryableException be
    else true

/-- One settled `deployStacks` callback for the stack named `nm`, applied to
the shared array: `dtr` is the outcome of its `this.deploy` call and `btr`
the outcome of the bootstrap run if one is attempted. -/
def deployOneStack (now : Int) (ss : List StackState) (nm : String)
    (dtr : DeployTry) (btr : BootstrapTry) : List StackState :=
  match dtr with
  | DeployTry.ok r =>
    let ss := updateStack ss nm (applyDeployResult now r)
    if deployResultFails r then skipUndeployedStacks ss else ss
  | DeployTry.err e =>
    if isRetryableException e then ss
    else if isBootstrapException e then
      match btr with
      | BootstrapTry.ok => ss
      | BootstrapTry.err be =>
        if isRetryableException be then ss
        else skipUndeployedStacks (updateStack ss nm (applyDeployError now be.message))
    else skipUndeployedStacks (updateStack ss nm (applyDeployError now e.message))

/-- The eligibility filter of `deployStacks`: `pending`, and no dependency
whose snapshot status is `pending` or `deploying`. -/
def depNotBlocking (ss : List StackState) (dep : String) : Bool :=
  match statusesByStackName ss dep with
  | some Status.pending => false
  | some Status.deploying => false
  | _ => true

/-- A stack passes both `filter`s at the top of `deployStacks`. -/
def isEligible (ss : List StackState) (st : StackState) : Bool :=
  st.status == Status.pending && st.dependencies.all (depNotBlocking ss)

/-- One wave of `deployStacks`: the eligible set is computed from the state
at entry, then every eligible stack's settled callback is applied.  `dtr`
and `btr` give each stack's external-call outcomes. -/
def deployStacksOnce (now : Int) (dtr : String → DeployTry) (btr : String → BootstrapTry)
    (ss : List StackState) : List StackState :=
  ((ss.filter (isEligible ss)).map (·.name)).foldl
    (fun acc nm => deployOneStack now acc nm (dtr nm) (btr nm)) ss

/-! ### The status poller (`updateDeployStatuses`) -/

/-- The value returned by one `deployStatus` call: `{ outputs, noOp }`. -/
structure PollResult where
  outputs : Option (List (String × String)) := none
  noOp : Bool
deriving DecidableEq, Repr

/-- Outcome of the awaited `deployStatus` call. -/
inductive PollTry where
  | ok (r : PollResult)
  | err (e : JsError)
deriving DecidableEq, Repr

/-- Outcome of the awaited `describeStackEvents` call. -/
inductive FetchEventsTry where
  | ok (evs : List RawEvent)
  | err (e : JsError)
deriving DecidableEq, Repr

/-- The field updates applied when `getDeployStatus` returns `r` (lines
418-425 of `cdk-toolkit.ts`): `outputs` is always written, then the stack
becomes `succeeded` when the operation is no longer a no-op. -/
def applyPollResult (now : Int) (r : PollResult) (st : StackState) : StackState :=
  let st := { st with outputs := r.outputs }
  if !r.noOp then { st with status := Status.succeeded, endedAt := some now } else st

/-- The status-query phase of one `updateDeployStatuses` callback (the
second `try`/`catch` of lines 416-436). -/
def pollStatusPhase (now : Int) (ptr : PollTry) (st : StackState) : StackState :=
  match ptr with
  | PollTry.ok r => applyPollResult now r st
  | PollTry.err e =>
    if isRetryableException e then st
    else
      { st with
        status := Status.failed
        endedAt := some now
        errorMessage := some (jsOr st.eventsLatestErrorMessage e.message) }

/-- One full `updateDeployStatuses` callback for one stack: the event-fetch
phase (a retryable fetch error returns early, a non-retryable one is
ignored), then the status-query phase. -/
def pollOneStack (now : Int) (evr : FetchEventsTry) (ptr : PollTry)
    (st : StackState) : StackState :=
  match evr with
  | FetchEventsTry.ok evs => pollStatusPhase now ptr (getStackEvents st evs)
  | FetchEventsTry.err e =>
    if isRetryableException e then st
    else pollStatusPhase now ptr st

/-- Whether the status-query phase takes the failing branch. -/
def pollQueryFails (ptr : PollTry) : Bool :=
  match ptr with
  | PollTry.ok _ => false
  | PollTry.err e => !isRetryableException e

/-- Whether one `updateDeployStatuses` callback transitions its stack to
`failed` and calls `skipUndeployedStacks` (a retryable event-fetch error
returns before the status query is attempted). -/
def pollFails (evr : FetchEventsTry) (ptr : PollTry) : Bool :=
  match evr with
  | FetchEventsTry.ok _ => pollQueryFails ptr
  | FetchEventsTry.err e =>
    if isRetryableException e then false else pollQueryFails ptr

/-- One settled `updateDeployStatuses` callback for the stack named `nm`,
applied to the shared array. -/
def pollStack (now : Int) (evr : FetchEventsTry) (ptr : PollTry)
    (ss : List StackState) (nm : String) : List StackState :=
  let ss := updateStack ss nm (pollOneStack now evr ptr)
  if pollFails evr ptr then skipUndeployedStacks ss else ss

/-- One tick of `updateDeployStatuses`: the `deploying` set is computed from
the state at entry, then every deploying stack's settled callback is
applied.  `evr` and `ptr` give each stack's external-call outcomes. -/
def updateDeployStatuses (now : Int) (evr : String → FetchEventsTry)
    (ptr : String → PollTry) (ss : List StackState) : List StackState :=
  ((ss.filter (fun st => st.status == Status.deploying)).map (·.name)).foldl
    (fun acc nm => pollStack now (evr nm) (ptr nm) acc nm) ss

/-- The `isCompleted` convergence predicate of `parallelDeploy`. -/
def isCompleted (ss : List StackState) : Bool :=
  ss.all (fun st =>
    !(st.status == Status.pending) && !(st.status == Status.deploying))

/-! ### Basic lemmas about the per-element operations -/

theorem skipOne_of_pending {st : StackState} (h : st.status = Status.pending) :
    skipOne st = { st with status := Status.skipped } := by
  simp [skipOne, h]

theorem skipOne_of_not_pending {st : StackState} (h : ¬ st.status = Status.pending) :
    skipOne st = st := by
  simp [skipOne, h]

theorem skipOne_status_ne_pending (st : StackState) :
    ¬ (skipOne st).status = Status.pending := by
  by_cases h : st.status = Status.pending
  · simp [skipOne, h]
  · simp [skipOne, h]

theorem getStackEvents_status (st : StackState) (evs : List RawEvent) :
    (getStackEvents st evs).status = st.status := rfl

theorem getStackEvents_outputs (st : StackState) (evs : List RawEvent) :
    (getStackEvents st evs).outputs = st.outputs := rfl

theorem getStackEvents_name (st : StackState) (evs : List RawEvent) :
    (getStackEvents st evs).name = st.name := rfl

theorem skipUndeployedStacks_getElem? (ss : List StackState) (j : Nat) :
    (skipUndeployedStacks ss)[j]? = (ss[j]?).map skipOne :=
  List.getElem?_map skipOne ss j

theorem updateStack_getElem? (ss : List StackState) (nm : String)
    (f : StackState → StackState) (j : Nat) :
    (updateStack ss nm f)[j]? =
      (ss[j]?).map (fun st => if st.name == nm then f st else st) :=
  List.getElem?_map _ ss j

/-! ### Claim C10 -/

/-- Claim C10: cascading skip (`skipUndeployedStacks`) modifies only stacks
whose status is `pending`, setting exactly their `status` field to
`skipped`; every stack in any other status is returned entirely unchanged,
and the collection itself keeps its length. -/
theorem skipUndeployedStacks_only_pending (ss : List StackState) (i : Nat)
    (st : StackState) (h : ss[i]? = some st) :
    (skipUndeployedStacks ss).length = ss.length
    ∧ (st.status = Status.pending →
        (skipUndeployedStacks ss)[i]? = some { st with status := Status.skipped })
    ∧ (¬ st.status = Status.pending → (skipUndeployedStacks ss)[i]? = some st) := by
  refine ⟨by simp [skipUndeployedStacks], ?_, ?_⟩
  · intro hp
    rw [skipUndeployedStacks_getElem?, h, Option.map_some', skipOne_of_pending hp]
  · intro hp
    rw [skipUndeployedStacks_getElem?, h, Option.map_some', skipOne_of_not_pending hp]

/-- Witness for C10 on a concrete two-stack state: the `pending` stack is
skipped and the `deploying` stack is returned unchanged. -/
theorem skipUndeployedStacks_only_pending_witness :
    (skipUndeployedStacks
        [{ name := "A", dependencies := [], status := Status.pending },
         { name := "B", dependencies := [], status := Status.deploying }])[1]? =
      some { name := "B", dependencies := [], status := Status.deploying } :=
  (skipUndeployedStacks_only_pending
    [{ name := "A", dependencies := [], status := Status.pending },
     { name := "B", dependencies := [], status := Status.deploying }]
    1 { name := "B", dependencies := [], status := Status.deploying }
    (by decide)).2.2 (by decide)

/-! ### Claim C9 -/

/-- Claim C9: a retryable failure during a poll tick mutates nothing: when
the event fetch fails retryably the whole callback leaves the stack exactly
as it was (the status query is not even attempted), and when the status
query fails retryably that phase is the identity; in particular with a
successful event fetch the stack's `status`, `outputs` and `endedAt` are
unchanged by the retryable query failure. -/
theorem retryable_poll_leaves_unit_unchanged (now : Int) (e : JsError)
    (h : isRetryableException e = true) :
    (∀ (st : StackState) (ptr : PollTry),
        pollOneStack now (FetchEventsTry.err e) ptr st = st)
    ∧ (∀ st : StackState, pollStatusPhase now (PollTry.err e) st = st)
    ∧ (∀ (st : StackState) (evs : List RawEvent),
        (pollOneStack now (FetchEventsTry.ok evs) (PollTry.err e) st).status = st.status
        ∧ (pollOneStack now (FetchEventsTry.ok evs) (PollTry.err e) st).outputs = st.outputs
        ∧ (pollOneStack now (FetchEventsTry.ok evs) (PollTry.err e) st).endedAt
            = st.endedAt) := by
  refine ⟨fun st ptr => ?_, fun st => ?_, fun st evs => ?_⟩
  · simp [pollOneStack, h]
  · simp [pollStatusPhase, h]
  · simp [pollOneStack, pollStatusPhase, h, getStackEvents]

/-- Witness for C9: a concrete `TimeoutError` on the event fetch leaves a
concrete deploying stack untouched. -/
theorem retryable_poll_leaves_unit_unchanged_witness :
    pollOneStack 7 (FetchEventsTry.err { code := some "TimeoutError", message := "t" })
        (PollTry.ok { outputs := none, noOp := true })
        { name := "A", dependencies := [], status := Status.deploying } =
      { name := "A", dependencies := [], status := Status.deploying } :=
  (retryable_poll_leaves_unit_unchanged 7
    { code := some "TimeoutError", message := "t" } (by decide)).1
    { name := "A", dependencies := [], status := Status.deploying }
    (PollTry.ok { outputs := none, noOp := true })

/-! ### Claim C3 -/

/-- Counterexample to C3 as stated: on a successful status query whose
result is still a no-op, the stack remains `deploying` and yet its
`outputs` field is written (here it changes from `none` to a value), so
`outputs` is not written only at terminal success-like transitions. -/
theorem outputs_written_while_deploying :
    ((updateDeployStatuses 100 (fun _ => FetchEventsTry.ok [])
        (fun _ => PollTry.ok { outputs := some [("a", "1")], noOp := true })
        [{ name := "A", dependencies := [], status := Status.deploying }])[0]?).map
        (fun u => (u.status, u.outputs)) =
      some (Status.deploying, some [("a", "1")])
    ∧ (StackState.outputs
        { name := "A", dependencies := [], status := Status.deploying }) = none := by
  constructor
  · rfl
  · rfl

/-- Claim C3, amended: `outputs` is written on every successful start
return (`applyDeployResult`) and every successful status query
(`applyPollResult`) with the call's returned outputs, regardless of the
resulting status — including while the stack remains `deploying` and on the
zero-resources failure path; no failure path (a thrown status query, the
thrown-start error update, cascading skip, or event reconciliation) writes
`outputs`. -/
theorem outputs_written_on_every_successful_call (now : Int) (st : StackState)
    (r : DeployResult) (p : PollResult) (e : JsError) (msg : String)
    (evs : List RawEvent) :
    (applyDeployResult now r st).outputs = r.outputs
    ∧ (applyPollResult now p st).outputs = p.outputs
    ∧ (pollStatusPhase now (PollTry.err e) st).outputs = st.outputs
    ∧ (applyDeployError now msg st).outputs = st.outputs
    ∧ (skipOne st).outputs = st.outputs
    ∧ (getStackEvents st evs).outputs = st.outputs := by
  refine ⟨?_, ?_, ?_, rfl, ?_, rfl⟩
  · simp only [applyDeployResult]
    split <;> try split <;> try split
    all_goals rfl
  · simp only [applyPollResult]
    split <;> rfl
  · simp only [pollStatusPhase]
    split <;> rfl
  · simp only [skipOne]
    split <;> rfl

/-! ### Claim C5 -/

/-- Claim C5: when the per-tick status query for a stack fails with a
non-retryable error, the stack transitions to `failed`, `endedAt` is
stamped with the tick time, the recorded `errorMessage` prefers a non-empty
`eventsLatestErrorMessage` and otherwise falls back to the query error's
message, and cascading skip is triggered on the shared array; when the
failure is retryable the stack's status is left untouched for the next
tick. -/
theorem poll_status_failure_transitions (now : Int) (st : StackState) (e : JsError) :
    (isRetryableException e = false →
      (pollStatusPhase now (PollTry.err e) st).status = Status.failed
      ∧ (pollStatusPhase now (PollTry.err e) st).endedAt = some now
      ∧ (∀ m : String, st.eventsLatestErrorMessage = some m → ¬ m = "" →
          (pollStatusPhase now (PollTry.err e) st).errorMessage = some m)
      ∧ (st.eventsLatestErrorMessage = none →
          (pollStatusPhase now (PollTry.err e) st).errorMessage = some e.message)
      ∧ ∀ (ss : List StackState) (nm : String) (evs : List RawEvent) (j : Nat)
          (u : StackState),
          ss[j]? = some u → u.status = Status.pending → ¬ u.name = nm →
          (pollStack now (FetchEventsTry.ok evs) (PollTry.err e) ss nm)[j]? =
            some { u with status := Status.skipped })
    ∧ (isRetryableException e = true →
        ∀ evr : FetchEventsTry,
          (pollOneStack now evr (PollTry.err e) st).status = st.status) := by
  constructor
  · intro hre
    refine ⟨?_, ?_, ?_, ?_, ?_⟩
    · simp [pollStatusPhase, hre]
    · simp [pollStatusPhase, hre]
    · intro m hm hne
      simp [pollStatusPhase, hre, jsOr, hm, hne]
    · intro hm
      simp [pollStatusPhase, hre, jsOr, hm]
    · intro ss nm evs j u hj hp hn
      have hfail : pollFails (FetchEventsTry.ok evs) (PollTry.err e) = true := by
        simp [pollFails, pollQueryFails, hre]
      simp only [pollStack, hfail, if_pos]
      rw [skipUndeployedStacks_getElem?, updateStack_getElem?, hj]
      simp only [Option.map_some']
      have hbeq : (u.name == nm) = false := by
        simp [hn]
      rw [hbeq]
      simp only [Bool.false_eq_true, if_false]
      rw [skipOne_of_pending hp]
  · intro hre evr
    cases evr with
    | ok evs =>
      simp [pollOneStack, pollStatusPhase, hre, getStackEvents_status]
    | err e2 =>
      by_cases h2 : isRetryableException e2
      · simp [pollOneStack, h2]
      · simp [pollOneStack, pollStatusPhase, h2, hre]

/-- Witness for C5 at a concrete input: a non-retryable query error on a
stack whose event stream recorded a failure reason uses that reason as the
final `errorMessage`. -/
theorem poll_status_failure_transitions_witness :
    (pollStatusPhase 9 (PollTry.err { code := none, message := "query failed" })
        { name := "A", dependencies := [], status := Status.deploying,
          eventsLatestErrorMessage := some "evmsg" }).errorMessage = some "evmsg" :=
  ((poll_status_failure_transitions 9
      { name := "A", dependencies := [], status := Status.deploying,
        eventsLatestErrorMessage := some "evmsg" }
      { code := none, message := "query failed" }).1 (by decide)).2.2.1
    "evmsg" rfl (by decide)

/-! ### Claim C4 -/

/-- Claim C4: a started stack whose deploy call reports `no_resources`
transitions directly to `failed` with a descriptive message naming the
stack, its `endedAt` equals its `startedAt`, and cascading skip marks every
other still-`pending` stack `skipped`. -/
theorem no_resources_fails_and_skips (now : Int) (ss : List StackState) (nm : String)
    (r : DeployResult) (btr : BootstrapTry) (hr : r.status = "no_resources")
    (i : Nat) (st : StackState) (h : ss[i]? = some st) (hn : st.name = nm) :
    (deployOneStack now ss nm (DeployTry.ok r) btr)[i]? =
      some { st with
        status := Status.failed
        account := r.account
        region := r.region
        startedAt := some now
        endedAt := some now
        errorMessage := some ("The " ++ st.name ++ " stack contains no resources.")
        outputs := r.outputs }
    ∧ ∀ (j : Nat) (u : StackState), ss[j]? = some u → u.status = Status.pending →
        ¬ u.name = nm →
        (deployOneStack now ss nm (DeployTry.ok r) btr)[j]? =
          some { u with status := Status.skipped } := by
  have hfail : deployResultFails r = true := by
    simp [deployResultFails, hr]
  constructor
  · simp only [deployOneStack, hfail, if_pos]
    rw [skipUndeployedStacks_getElem?, updateStack_getElem?, h]
    simp only [Option.map_some']
    have hbeq : (st.name == nm) = true := by simp [hn]
    rw [hbeq]
    simp only [if_true]
    have happ : applyDeployResult now r st =
        { st with
          status := Status.failed
          account := r.account
          region := r.region
          startedAt := some now
          endedAt := some now
          errorMessage := some ("The " ++ st.name ++ " stack contains no resources.")
          outputs := r.outputs } := by
      simp [applyDeployResult, hr]
    rw [happ, skipOne_of_not_pending (by simp)]
  · intro j u hj hp hnu
    simp only [deployOneStack, hfail, if_pos]
    rw [skipUndeployedStacks_getElem?, updateStack_getElem?, hj]
    simp only [Option.map_some']
    have hbeq : (u.name == nm) = false := by simp [hnu]
    rw [hbeq]
    simp only [Bool.false_eq_true, if_false]
    rw [skipOne_of_pending hp]

/-- Witness for C4 on a concrete two-stack state: the empty stack fails
with the descriptive message and equal timestamps. -/
theorem no_resources_fails_and_skips_witness :
    (deployOneStack 3
        [{ name := "N", dependencies := [], status := Status.pending },
         { name := "P", dependencies := ["N"], status := Status.pending }]
        "N" (DeployTry.ok { status := "no_resources" }) BootstrapTry.ok)[0]? =
      some { name := "N", dependencies := [], status := Status.failed,
             startedAt := some 3, endedAt := some 3,
             errorMessage := some "The N stack contains no resources." } :=
  (no_resources_fails_and_skips 3
    [{ name := "N", dependencies := [], status := Status.pending },
     { name := "P", dependencies := ["N"], status := Status.pending }]
    "N" { status := "no_resources" } BootstrapTry.ok rfl 0
    { name := "N", dependencies := [], status := Status.pending }
    (by decide) rfl).1

/-! ### Branch-shape lemmas for the failure paths -/

theorem skipOne_status_cases (u : StackState) :
    (skipOne u).status = Status.skipped ∨ (skipOne u).status = u.status := by
  unfold skipOne
  split
  · left; rfl
  · right; rfl

theorem applyDeployResult_status_of_fails {r : DeployResult} (now : Int) (st : StackState)
    (h : deployResultFails r = true) :
    (applyDeployResult now r st).status = Status.failed := by
  simp only [deployResultFails, Bool.and_eq_true, Bool.not_eq_true'] at h
  obtain ⟨h1, h2⟩ := h
  simp only [applyDeployResult, h1, h2, Bool.false_eq_true, if_false]
  split <;> rfl

theorem applyDeployResult_status_of_not_fails {r : DeployResult} (now : Int)
    (st : StackState) (h : deployResultFails r = false) :
    (applyDeployResult now r st).status = Status.unchanged
    ∨ (applyDeployResult now r st).status = Status.deploying := by
  by_cases h1 : r.status = "unchanged"
  · left; simp [applyDeployResult, h1]
  · have h2 : r.status = "deploying" := by
      simp only [deployResultFails, Bool.and_eq_false_iff, Bool.not_eq_false'] at h
      rcases h with h | h
      · exact absurd (by simpa using h) h1
      · simpa using h
    right; simp [applyDeployResult, h1, h2]

theorem skipOne_name (st : StackState) : (skipOne st).name = st.name := by
  unfold skipOne
  split <;> rfl

theorem applyDeployResult_name (now : Int) (r : DeployResult) (st : StackState) :
    (applyDeployResult now r st).name = st.name := by
  simp only [applyDeployResult]
  split <;> try split <;> try split
  all_goals rfl

theorem deployOneStack_of_fails (now : Int) (ss : List StackState) (nm : String)
    (dtr : DeployTry) (btr : BootstrapTry) (h : deployTryFails dtr btr = true) :
    ∃ upd : StackState → StackState,
      deployOneStack now ss nm dtr btr = skipUndeployedStacks (updateStack ss nm upd)
      ∧ (∀ st : StackState, (upd st).status = Status.failed)
      ∧ (∀ st : StackState, (upd st).name = st.name) := by
  cases dtr with
  | ok r =>
    have hf : deployResultFails r = true := h
    exact ⟨applyDeployResult now r, by simp [deployOneStack, hf],
      fun st => applyDeployResult_status_of_fails now st hf,
      fun st => applyDeployResult_name now r st⟩
  | err e =>
    by_cases h1 : isRetryableException e
    · simp [deployTryFails, h1] at h
    · by_cases h2 : isBootstrapException e
      · cases btr with
        | ok => simp [deployTryFails, h1, h2] at h
        | err be =>
          by_cases h3 : isRetryableException be
          · simp [deployTryFails, h1, h2, h3] at h
          · exact ⟨applyDeployError now be.message,
              by simp [deployOneStack, h1, h2, h3], fun st => rfl, fun st => rfl⟩
      · exact ⟨applyDeployError now e.message,
          by simp [deployOneStack, h1, h2], fun st => rfl, fun st => rfl⟩

theorem deployOneStack_of_not_fails (now : Int) (ss : List StackState) (nm : String)
    (dtr : DeployTry) (btr : BootstrapTry) (h : deployTryFails dtr btr = false) :
    (∃ r, dtr = DeployTry.ok r ∧ deployResultFails r = false
        ∧ deployOneStack now ss nm dtr btr = updateStack ss nm (applyDeployResult now r))
    ∨ deployOneStack now ss nm dtr btr = ss := by
  cases dtr with
  | ok r =>
    have hf : deployResultFails r = false := h
    exact Or.inl ⟨r, rfl, hf, by simp [deployOneStack, hf]⟩
  | err e =>
    right
    by_cases h1 : isRetryableException e
    · simp [deployOneStack, h1]
    · by_cases h2 : isBootstrapException e
      · cases btr with
        | ok => simp [deployOneStack, h1, h2]
        | err be =>
          by_cases h3 : isRetryableException be
          · simp [deployOneStack, h1, h2, h3]
          · simp [deployTryFails, h1, h2, h3] at h
      · simp [deployTryFails, h1, h2] at h

theorem pollOneStack_status_of_fails (now : Int) (evr : FetchEventsTry) (ptr : PollTry)
    (st : StackState) (h : pollFails evr ptr = true) :
    (pollOneStack now evr ptr st).status = Status.failed := by
  cases evr with
  | ok evs =>
    have hq : pollQueryFails ptr = true := h
    cases ptr with
    | ok r => simp [pollQueryFails] at hq
    | err e =>
      have he : isRetryableException e = false := by
        simpa [pollQueryFails] using hq
      simp [pollOneStack, pollStatusPhase, he]
  | err e2 =>
    by_cases h1 : isRetryableException e2
    · simp [pollFails, h1] at h
    · have hq : pollQueryFails ptr = true := by simpa [pollFails, h1] using h
      cases ptr with
      | ok r => simp [pollQueryFails] at hq
      | err e =>
        have he : isRetryableException e = false := by
          simpa [pollQueryFails] using hq
        simp [pollOneStack, pollStatusPhase, h1, he]

theorem pollStatusPhase_status_of_not_fails (now : Int) (ptr : PollTry) (st : StackState)
    (h : pollQueryFails ptr = false) :
    (pollStatusPhase now ptr st).status = Status.succeeded
    ∨ (pollStatusPhase now ptr st).status = st.status := by
  cases ptr with
  | ok r =>
    simp only [pollStatusPhase, applyPollResult]
    split
    · left; rfl
    · right; rfl
  | err e =>
    have he : isRetryableException e = true := by simpa [pollQueryFails] using h
    right; simp [pollStatusPhase, he]

theorem pollOneStack_status_of_not_fails (now : Int) (evr : FetchEventsTry) (ptr : PollTry)
    (st : StackState) (h : pollFails evr ptr = false) :
    (pollOneStack now evr ptr st).status = Status.succeeded
    ∨ (pollOneStack now evr ptr st).status = st.status := by
  cases evr with
  | ok evs =>
    have hq : pollQueryFails ptr = false := h
    have hres := pollStatusPhase_status_of_not_fails now ptr (getStackEvents st evs) hq
    rwa [getStackEvents_status] at hres
  | err e2 =>
    by_cases h1 : isRetryableException e2
    · right; simp [pollOneStack, h1]
    · have hq : pollQueryFails ptr = false := by simpa [pollFails, h1] using h
      have hres := pollStatusPhase_status_of_not_fails now ptr st hq
      simpa [pollOneStack, h1] using hres

theorem pollStack_of_fails (now : Int) (evr : FetchEventsTry) (ptr : PollTry)
    (ss : List StackState) (nm : String) (h : pollFails evr ptr = true) :
    pollStack now evr ptr ss nm =
      skipUndeployedStacks (updateStack ss nm (pollOneStack now evr ptr)) := by
  simp [pollStack, h]

theorem pollStack_of_not_fails (now : Int) (evr : FetchEventsTry) (ptr : PollTry)
    (ss : List StackState) (nm : String) (h : pollFails evr ptr = false) :
    pollStack now evr ptr ss nm = updateStack ss nm (pollOneStack now evr ptr) := by
  simp [pollStack, h]

/-! ### Claim C2 -/

/-- Claim C2: whenever any stack transitions to `failed` in a settled
callback — of the scheduler wave (`deployOneStack`, covering the
zero-resources case, a fatal start error and a non-retryable bootstrap
failure) or of the poller (`pollStack`, covering a non-retryable
status-query failure) — every stack whose status was `pending` at that
point is set to `skipped` (or, for the transitioning stack itself,
`failed`), and no `pending` stack remains afterwards: the whole run is
aborted, not just transitive dependents. -/
theorem failed_transition_skips_every_pending :
    (∀ (now : Int) (ss : List StackState) (nm : String) (dtr : DeployTry)
        (btr : BootstrapTry) (i : Nat) (st st' : StackState),
        ss[i]? = some st → ¬ st.status = Status.failed →
        (deployOneStack now ss nm dtr btr)[i]? = some st' →
        st'.status = Status.failed →
        (∀ (j : Nat) (u' : StackState),
            (deployOneStack now ss nm dtr btr)[j]? = some u' →
            ¬ u'.status = Status.pending)
        ∧ (∀ (j : Nat) (u u' : StackState), ss[j]? = some u →
            u.status = Status.pending →
            (deployOneStack now ss nm dtr btr)[j]? = some u' →
            u'.status = Status.skipped ∨ u'.status = Status.failed))
    ∧ (∀ (now : Int) (ss : List StackState) (nm : String) (evr : FetchEventsTry)
        (ptr : PollTry) (i : Nat) (st st' : StackState),
        ss[i]? = some st → ¬ st.status = Status.failed →
        (pollStack now evr ptr ss nm)[i]? = some st' →
        st'.status = Status.failed →
        (∀ (j : Nat) (u' : StackState),
            (pollStack now evr ptr ss nm)[j]? = some u' →
            ¬ u'.status = Status.pending)
        ∧ (∀ (j : Nat) (u u' : StackState), ss[j]? = some u →
            u.status = Status.pending →
            (pollStack now evr ptr ss nm)[j]? = some u' →
            u'.status = Status.skipped ∨ u'.status = Status.failed)) := by
  constructor
  · intro now ss nm dtr btr i st st' hi hst hi' hfailed
    by_cases hf : deployTryFails dtr btr = true
    · obtain ⟨upd, heq, hupd, hunm⟩ := deployOneStack_of_fails now ss nm dtr btr hf
      constructor
      · intro j u' hj
        rw [heq, skipUndeployedStacks_getElem?] at hj
        obtain ⟨x, _, hgx⟩ := Option.map_eq_some'.mp hj
        rw [← hgx]
        exact skipOne_status_ne_pending x
      · intro j u u' hj hp hj'
        rw [heq, skipUndeployedStacks_getElem?, updateStack_getElem?, hj] at hj'
        simp only [Option.map_some', Option.some.injEq] at hj'
        subst hj'
        by_cases hn : (u.name == nm) = true
        · simp only [hn, if_true]
          right
          rw [skipOne_of_not_pending (by simp [hupd u])]
          exact hupd u
        · simp only [hn, Bool.false_eq_true, if_false]
          left
          rw [skipOne_of_pending hp]
    · exfalso
      have hf' : deployTryFails dtr btr = false := by simpa using hf
      rcases deployOneStack_of_not_fails now ss nm dtr btr hf' with
        ⟨r, rfl, hrf, heq⟩ | heq
      · rw [heq, updateStack_getElem?, hi] at hi'
        simp only [Option.map_some', Option.some.injEq] at hi'
        subst hi'
        by_cases hn : (st.name == nm) = true
        · simp only [hn, if_true] at hfailed
          rcases applyDeployResult_status_of_not_fails now st hrf with hs | hs <;>
            rw [hfailed] at hs <;> cases hs
        · simp only [hn, Bool.false_eq_true, if_false] at hfailed
          exact hst hfailed
      · rw [heq, hi] at hi'
        cases hi'
        exact hst hfailed
  · intro now ss nm evr ptr i st st' hi hst hi' hfailed
    by_cases hf : pollFails evr ptr = true
    · have heq := pollStack_of_fails now evr ptr ss nm hf
      constructor
      · intro j u' hj
        rw [heq, skipUndeployedStacks_getElem?] at hj
        obtain ⟨x, _, hgx⟩ := Option.map_eq_some'.mp hj
        rw [← hgx]
        exact skipOne_status_ne_pending x
      · intro j u u' hj hp hj'
        rw [heq, skipUndeployedStacks_getElem?, updateStack_getElem?, hj] at hj'
        simp only [Option.map_some', Option.some.injEq] at hj'
        subst hj'
        by_cases hn : (u.name == nm) = true
        · simp only [hn, if_true]
          right
          have hpf := pollOneStack_status_of_fails now evr ptr u hf
          rw [skipOne_of_not_pending (by simp [hpf])]
          exact hpf
        · simp only [hn, Bool.false_eq_true, if_false]
          left
          rw [skipOne_of_pending hp]
    · exfalso
      have hf' : pollFails evr ptr = false := by simpa using hf
      rw [pollStack_of_not_fails now evr ptr ss nm hf', updateStack_getElem?, hi] at hi'
      simp only [Option.map_some', Option.some.injEq] at hi'
      subst hi'
      by_cases hn : (st.name == nm) = true
      · simp only [hn, if_true] at hfailed
        rcases pollOneStack_status_of_not_fails now evr ptr st hf' with hs | hs
        · rw [hfailed] at hs; cases hs
        · rw [hfailed] at hs; exact hst hs.symm
      · simp only [hn, Bool.false_eq_true, if_false] at hfailed
        exact hst hfailed

set_option maxRecDepth 8000 in
/-- Witness for C2 on a concrete state: a fatal start error on stack `A`
leaves the pending stack `P` skipped. -/
theorem failed_transition_skips_every_pending_witness :
    (deployOneStack 5
        [{ name := "A", dependencies := [], status := Status.pending },
         { name := "P", dependencies := [], status := Status.pending }]
        "A" (DeployTry.err { code := none, message := "kaput" }) BootstrapTry.ok)[1]? =
      some { name := "P", dependencies := [], status := Status.skipped }
    ∧ ((StackState.status
          { name := "P", dependencies := [], status := Status.skipped })
            = Status.skipped
        ∨ (StackState.status
          { name := "P", dependencies := [], status := Status.skipped })
            = Status.failed) :=
  ⟨by decide,
    (failed_transition_skips_every_pending.1 5
      [{ name := "A", dependencies := [], status := Status.pending },
       { name := "P", dependencies := [], status := Status.pending }]
      "A" (DeployTry.err { code := none, message := "kaput" }) BootstrapTry.ok
      0 { name := "A", dependencies := [], status := Status.pending }
      { name := "A", dependencies := [], status := Status.failed, startedAt := some 5,
        endedAt := some 5, errorMessage := some "kaput" }
      (by decide) (by decide) (by decide) rfl).2 1
      { name := "P", dependencies := [], status := Status.pending }
      { name := "P", dependencies := [], status := Status.skipped }
      (by decide) rfl (by decide)⟩

/-! ### Claim C1 -/

theorem depNotBlocking_iff (ss : List StackState) (d : String) :
    depNotBlocking ss d = true ↔
      ¬ statusesByStackName ss d = some Status.pending
      ∧ ¬ statusesByStackName ss d = some Status.deploying := by
  unfold depNotBlocking
  cases h : statusesByStackName ss d with
  | none => simp
  | some s => cases s <;> simp

/-- One settled wave callback can make a stack `deploying` only if that
stack is the callback's target (or was already `deploying`); names are
preserved position-wise. -/
theorem deployOneStack_step (now : Int) (ss : List StackState) (x : String)
    (dtr : DeployTry) (btr : BootstrapTry) (i : Nat) (st1 : StackState)
    (h : (deployOneStack now ss x dtr btr)[i]? = some st1) :
    ∃ st0, ss[i]? = some st0 ∧ st0.name = st1.name
      ∧ (st1.status = Status.deploying →
          st0.status = Status.deploying ∨ st0.name = x) := by
  by_cases hf : deployTryFails dtr btr = true
  · obtain ⟨upd, heq, hupd, hunm⟩ := deployOneStack_of_fails now ss x dtr btr hf
    rw [heq, skipUndeployedStacks_getElem?, updateStack_getElem?, Option.map_map] at h
    obtain ⟨st0, h0, hcomp⟩ := Option.map_eq_some'.mp h
    refine ⟨st0, h0, ?_, ?_⟩
    · rw [← hcomp]
      simp only [Function.comp_apply, skipOne_name]
      by_cases hn : (st0.name == x) = true
      · simp only [hn, if_true, hunm st0]
      · simp only [hn, Bool.false_eq_true, if_false]
    · intro hdep
      rw [← hcomp] at hdep
      simp only [Function.comp_apply] at hdep
      rcases skipOne_status_cases (if st0.name == x then upd st0 else st0) with hs | hs
      · rw [hdep] at hs; cases hs
      · rw [hdep] at hs
        by_cases hn : (st0.name == x) = true
        · rw [if_pos hn, hupd st0] at hs; cases hs
        · rw [if_neg (by simp [hn] : ¬ (st0.name == x) = true)] at hs
          exact Or.inl hs.symm
  · have hf2 : deployTryFails dtr btr = false := by simpa using hf
    rcases deployOneStack_of_not_fails now ss x dtr btr hf2 with ⟨r, rfl, hrf, heq⟩ | heq
    · rw [heq, updateStack_getElem?] at h
      obtain ⟨st0, h0, hcomp⟩ := Option.map_eq_some'.mp h
      refine ⟨st0, h0, ?_, ?_⟩
      · rw [← hcomp]
        by_cases hn : (st0.name == x) = true
        · simp only [hn, if_true, applyDeployResult_name]
        · simp only [hn, Bool.false_eq_true, if_false]
      · intro hdep
        by_cases hn : (st0.name == x) = true
        · exact Or.inr (by simpa using hn)
        · rw [← hcomp, if_neg (by simp [hn] : ¬ (st0.name == x) = true)] at hdep
          exact Or.inl hdep
    · rw [heq] at h
      exact ⟨st1, h, rfl, fun hdep => Or.inl hdep⟩

/-- Through a whole sequence of settled wave callbacks, a stack can end up
`deploying` only if it was already `deploying` or its name is among the
callbacks' targets. -/
theorem wave_fold_deploying (now : Int) (dtr : String → DeployTry)
    (btr : String → BootstrapTry) (names : List String) :
    ∀ (ss : List StackState) (i : Nat) (st1 : StackState),
      (names.foldl (fun acc x => deployOneStack now acc x (dtr x) (btr x)) ss)[i]?
        = some st1 →
      st1.status = Status.deploying →
      ∃ st0, ss[i]? = some st0 ∧ st0.name = st1.name
        ∧ (st0.status = Status.deploying ∨ st0.name ∈ names) := by
  induction names with
  | nil =>
    intro ss i st1 h hdep
    exact ⟨st1, h, rfl, Or.inl hdep⟩
  | cons x xs ih =>
    intro ss i st1 h hdep
    rw [List.foldl_cons] at h
    obtain ⟨stm, hm, hmname, hmcase⟩ :=
      ih (deployOneStack now ss x (dtr x) (btr x)) i st1 h hdep
    obtain ⟨st0, h0, h0name, h0case⟩ :=
      deployOneStack_step now ss x (dtr x) (btr x) i stm hm
    refine ⟨st0, h0, h0name.trans hmname, ?_⟩
    rcases hmcase with hdepm | hmem
    · rcases h0case hdepm with hdep0 | hx
      · exact Or.inl hdep0
      · exact Or.inr (by rw [hx]; exact List.mem_cons_self x xs)
    · exact Or.inr (List.mem_cons_of_mem x (h0name ▸ hmem))

/-- Claim C1: in a scheduler wave (`deployStacksOnce`), a `pending` stack is
started — i.e. transitions to `deploying` — only if every one of its
dependencies has, in the wave's entry snapshot, a status that is neither
`pending` nor `deploying`. -/
theorem wave_only_starts_eligible (now : Int) (dtr : String → DeployTry)
    (btr : String → BootstrapTry) (ss : List StackState)
    (hnd : (ss.map (fun st => st.name)).Nodup)
    (i : Nat) (st st2 : StackState)
    (hst : ss[i]? = some st) (hp : st.status = Status.pending)
    (hst2 : (deployStacksOnce now dtr btr ss)[i]? = some st2)
    (hdep : st2.status = Status.deploying) :
    ∀ d ∈ st.dependencies,
      ¬ statusesByStackName ss d = some Status.pending
      ∧ ¬ statusesByStackName ss d = some Status.deploying := by
  have hfold : (((ss.filter (isEligible ss)).map (fun u => u.name)).foldl
      (fun acc x => deployOneStack now acc x (dtr x) (btr x)) ss)[i]? = some st2 := hst2
  obtain ⟨st0, hst0, h0name, h0case⟩ :=
    wave_fold_deploying now dtr btr ((ss.filter (isEligible ss)).map (fun u => u.name))
      ss i st2 hfold hdep
  rw [hst] at hst0
  cases hst0
  have hmem : st.name ∈ (ss.filter (isEligible ss)).map (fun u => u.name) := by
    rcases h0case with hdep0 | hmem
    · rw [hp] at hdep0; cases hdep0
    · exact hmem
  obtain ⟨u, humem, huname⟩ := List.mem_map.mp hmem
  have hu_ss : u ∈ ss := List.mem_of_mem_filter humem
  have hu_elig : isEligible ss u = true := List.of_mem_filter humem
  have hst_mem : st ∈ ss := by
    obtain ⟨hlen, rfl⟩ := List.getElem?_eq_some.mp hst
    exact List.getElem_mem hlen
  have hust : u = st := List.inj_on_of_nodup_map hnd hu_ss hst_mem huname
  rw [hust] at hu_elig
  have hall : st.dependencies.all (depNotBlocking ss) = true :=
    ((Bool.and_eq_true _ _).mp hu_elig).2
  intro d hd
  exact (depNotBlocking_iff ss d).mp (List.all_eq_true.mp hall d hd)

set_option maxRecDepth 8000 in
/-- Witness for C1 on a concrete state: stack `B` depends on `A2`, which
has already `succeeded`, so `B` starts; its dependency's snapshot status is
neither `pending` nor `deploying`. -/
theorem wave_only_starts_eligible_witness :
    ¬ statusesByStackName
        [{ name := "B", dependencies := ["A2"], status := Status.pending },
         { name := "A2", dependencies := [], status := Status.succeeded }] "A2"
        = some Status.pending
    ∧ ¬ statusesByStackName
        [{ name := "B", dependencies := ["A2"], status := Status.pending },
         { name := "A2", dependencies := [], status := Status.succeeded }] "A2"
        = some Status.deploying :=
  wave_only_starts_eligible 0 (fun _ => DeployTry.ok { status := "deploying" })
    (fun _ => BootstrapTry.ok)
    [{ name := "B", dependencies := ["A2"], status := Status.pending },
     { name := "A2", dependencies := [], status := Status.succeeded }]
    (by decide) 0
    { name := "B", dependencies := ["A2"], status := Status.pending }
    { name := "B", dependencies := ["A2"], status := Status.deploying,
      startedAt := some 0 }
    (by decide) rfl (by decide) rfl "A2" (by decide)

/-! ### Lemmas about the reconciliation fold -/

theorem processEvent_eq (w : Option Int) (acc : EvAcc) (e : RawEvent) :
    processEvent w acc e =
      if eventInRange w e && acc.events.all (fun le => !(le.eventId == e.EventId)) then
        { events := acc.events ++ [convertRawEvent e]
          latestErr :=
            if isFailureStatus e.ResourceStatus && !optStrTruthy acc.latestErr then
              e.ResourceStatusReason
            else acc.latestErr }
      else acc := rfl

theorem eventInRange_eq_true {w : Option Int} {e : RawEvent}
    (h : eventInRange w e = true) : ∃ t, w = some t ∧ t ≤ e.Timestamp := by
  cases w with
  | none => simp [eventInRange] at h
  | some t => exact ⟨t, rfl, by simpa [eventInRange] using h⟩

/-- The reconciliation loop only appends: the recorded events grow by a
tail whose members are all in range of the watermark and deduplicated
against the events recorded before the loop. -/
theorem processList_events_append (w : Option Int) :
    ∀ (l : List RawEvent) (acc : EvAcc),
      ∃ tl, (l.foldl (processEvent w) acc).events = acc.events ++ tl
        ∧ ∀ ev ∈ tl,
            (∃ t, w = some t ∧ t ≤ ev.timestamp)
            ∧ ∀ le ∈ acc.events, ¬ le.eventId = ev.eventId := by
  intro l
  induction l with
  | nil =>
    intro acc
    exact ⟨[], by simp, by simp⟩
  | cons e es ih =>
    intro acc
    rw [List.foldl_cons]
    by_cases hg : (eventInRange w e
        && acc.events.all (fun le => !(le.eventId == e.EventId))) = true
    · obtain ⟨tl, htl, hprop⟩ := ih (processEvent w acc e)
      have hpe : (processEvent w acc e).events = acc.events ++ [convertRawEvent e] := by
        rw [processEvent_eq, if_pos hg]
      refine ⟨convertRawEvent e :: tl, ?_, ?_⟩
      · rw [htl, hpe, List.append_assoc, List.singleton_append]
      · intro ev hev
        rcases List.mem_cons.mp hev with rfl | hmem
        · obtain ⟨hr, hnl⟩ := (Bool.and_eq_true _ _).mp hg
          refine ⟨eventInRange_eq_true hr, ?_⟩
          intro le hle
          have := List.all_eq_true.mp hnl le hle
          simpa [convertRawEvent] using this
        · obtain ⟨hrange, hnot⟩ := hprop ev hmem
          refine ⟨hrange, ?_⟩
          intro le hle
          exact hnot le (by rw [hpe]; exact List.mem_append_left _ hle)
    · have hpe : processEvent w acc e = acc := by
        rw [processEvent_eq, if_neg (by simpa using hg)]
      rw [hpe]
      exact ih acc

/-- Every in-range raw event of the fetched log has its identifier among
the recorded events after the loop runs. -/
theorem processList_covers (w : Option Int) :
    ∀ (l : List RawEvent) (acc : EvAcc) (e : RawEvent), e ∈ l →
      eventInRange w e = true →
      ∃ le ∈ (l.foldl (processEvent w) acc).events, le.eventId = e.EventId := by
  intro l
  induction l with
  | nil =>
    intro acc e he
    cases he
  | cons x xs ih =>
    intro acc e he hr
    rw [List.foldl_cons]
    rcases List.mem_cons.mp he with rfl | hmem
    · by_cases hg : acc.events.all (fun le => !(le.eventId == e.EventId)) = true
      · have hconv : convertRawEvent e ∈ (processEvent w acc e).events := by
          rw [processEvent_eq, if_pos (by rw [hr, hg]; rfl)]
          simp
        obtain ⟨tl, htl, _⟩ := processList_events_append w xs (processEvent w acc e)
        exact ⟨convertRawEvent e, by rw [htl]; exact List.mem_append_left _ hconv, rfl⟩
      · have hex : ∃ le ∈ acc.events, le.eventId = e.EventId := by
          by_contra hno
          push_neg at hno
          apply hg
          rw [List.all_eq_true]
          intro le hle
          simp [hno le hle]
        obtain ⟨le, hle, hid⟩ := hex
        have hsub : le ∈ (processEvent w acc e).events := by
          rw [processEvent_eq]
          split
          · exact List.mem_append_left _ hle
          · exact hle
        obtain ⟨tl, htl, _⟩ := processList_events_append w xs (processEvent w acc e)
        exact ⟨le, by rw [htl]; exact List.mem_append_left _ hsub, hid⟩
    · exact ih (processEvent w acc x) e hmem hr

/-- When every in-range raw event is already recorded, the loop is the
identity on the accumulator. -/
theorem processList_identity (w : Option Int) :
    ∀ (l : List RawEvent) (acc : EvAcc),
      (∀ e ∈ l, eventInRange w e = true →
        ∃ le ∈ acc.events, le.eventId = e.EventId) →
      l.foldl (processEvent w) acc = acc := by
  intro l
  induction l with
  | nil =>
    intro acc _
    rfl
  | cons x xs ih =>
    intro acc hcov
    rw [List.foldl_cons]
    have hacc : processEvent w acc x = acc := by
      rw [processEvent_eq]
      by_cases hr : eventInRange w x = true
      · obtain ⟨le, hle, hid⟩ := hcov x (List.mem_cons_self x xs) hr
        have hall : acc.events.all (fun le2 => !(le2.eventId == x.EventId)) = false := by
          rw [Bool.eq_false_iff]
          intro hall
          have := List.all_eq_true.mp hall le hle
          simp [hid] at this
        rw [hall]
        simp
      · have hr2 : eventInRange w x = false := by simpa using hr
        rw [hr2]
        simp
    rw [hacc]
    exact ih acc (fun e he hre => hcov e (List.mem_cons_of_mem x he) hre)

theorem nextWatermark_idem (st : StackState) (l : List RawEvent) :
    nextWatermark (getStackEvents st l) l = nextWatermark st l := by
  unfold nextWatermark
  cases h : l.find? matchesFirstRelevant with
  | some e => rfl
  | none => simp [getStackEvents, nextWatermark, h]

/-! ### Claim C6 -/

/-- Claim C6: event reconciliation is idempotent — re-running
`getStackEvents` with an unchanged provider log appends exactly zero new
events (and in fact leaves the whole stack state exactly as it was),
because events are deduplicated by their event identifier. -/
theorem getStackEvents_eq (st : StackState) (l : List RawEvent) :
    getStackEvents st l =
      { st with
        eventsFirstEventAt := nextWatermark st l,
        events := some ((l.reverse.foldl (processEvent (nextWatermark st l))
          { events := st.events.getD [],
            latestErr := st.eventsLatestErrorMessage }).events),
        eventsLatestErrorMessage := (l.reverse.foldl (processEvent (nextWatermark st l))
          { events := st.events.getD [],
            latestErr := st.eventsLatestErrorMessage }).latestErr } := rfl

theorem getStackEvents_idempotent (st : StackState) (l : List RawEvent) :
    getStackEvents (getStackEvents st l) l = getStackEvents st l := by
  have hw : nextWatermark (getStackEvents st l) l = nextWatermark st l :=
    nextWatermark_idem st l
  have hcov : ∀ e ∈ l.reverse, eventInRange (nextWatermark st l) e = true →
      ∃ le ∈ (l.reverse.foldl (processEvent (nextWatermark st l))
          { events := st.events.getD [],
            latestErr := st.eventsLatestErrorMessage }).events,
        le.eventId = e.EventId :=
    fun e he hr => processList_covers (nextWatermark st l) l.reverse
      { events := st.events.getD [], latestErr := st.eventsLatestErrorMessage } e he hr
  have hid := processList_identity (nextWatermark st l) l.reverse
    (l.reverse.foldl (processEvent (nextWatermark st l))
      { events := st.events.getD [], latestErr := st.eventsLatestErrorMessage }) hcov
  have hacc : ({ events := (getStackEvents st l).events.getD [],
                 latestErr := (getStackEvents st l).eventsLatestErrorMessage } : EvAcc) =
      l.reverse.foldl (processEvent (nextWatermark st l))
        { events := st.events.getD [], latestErr := st.eventsLatestErrorMessage } := rfl
  rw [getStackEvents_eq (getStackEvents st l) l, hw, hacc, hid]
  rfl

/-! ### Claim C7 -/

/-- On every reconciliation call, the recorded events grow only by a tail
of events whose timestamps are at or after the call's watermark and whose
identifiers were not recorded before the call. -/
theorem getStackEvents_appends_only_in_range (st : StackState) (l : List RawEvent) :
    ∃ tl, (getStackEvents st l).events = some (st.events.getD [] ++ tl)
      ∧ ∀ ev ∈ tl,
          (∃ t, (getStackEvents st l).eventsFirstEventAt = some t ∧ t ≤ ev.timestamp)
          ∧ ∀ le ∈ st.events.getD [], ¬ le.eventId = ev.eventId := by
  obtain ⟨tl, htl, hprop⟩ := processList_events_append (nextWatermark st l) l.reverse
    { events := st.events.getD [], latestErr := st.eventsLatestErrorMessage }
  refine ⟨tl, ?_, ?_⟩
  · show some ((l.reverse.foldl (processEvent (nextWatermark st l))
      { events := st.events.getD [],
        latestErr := st.eventsLatestErrorMessage }).events) = _
    rw [htl]
  · intro ev hev
    obtain ⟨⟨t, hwt, hle⟩, hnot⟩ := hprop ev hev
    exact ⟨⟨t, hwt, hle⟩, hnot⟩

/-- Claim C7: on the first reconciliation call for a stack (no watermark
yet), the watermark `eventsFirstEventAt` becomes 5 seconds (5000 ms)
before the timestamp of the first fetched event that is a stack-level
in-progress create/update/delete, and the call appends to the recorded
events only a tail of events whose timestamps are at or after that
watermark and whose identifiers were not already recorded; on every
subsequent call too, only events at or after the maintained watermark and
not already recorded are appended. -/
theorem first_call_watermark_and_filter (st : StackState) (l : List RawEvent)
    (e : RawEvent) (_hw0 : st.eventsFirstEventAt = none)
    (hfind : l.find? matchesFirstRelevant = some e) :
    (getStackEvents st l).eventsFirstEventAt = some (e.Timestamp - 5000)
    ∧ (∃ tl, (getStackEvents st l).events = some (st.events.getD [] ++ tl)
        ∧ ∀ ev ∈ tl, e.Timestamp - 5000 ≤ ev.timestamp
          ∧ ∀ le ∈ st.events.getD [], ¬ le.eventId = ev.eventId)
    ∧ ∀ (st2 : StackState) (l2 : List RawEvent),
        ∃ tl, (getStackEvents st2 l2).events = some (st2.events.getD [] ++ tl)
          ∧ ∀ ev ∈ tl,
              (∃ t, (getStackEvents st2 l2).eventsFirstEventAt = some t
                ∧ t ≤ ev.timestamp)
              ∧ ∀ le ∈ st2.events.getD [], ¬ le.eventId = ev.eventId := by
  have hwm : nextWatermark st l = some (e.Timestamp - 5000) := by
    unfold nextWatermark
    rw [hfind]
  refine ⟨?_, ?_, fun st2 l2 => getStackEvents_appends_only_in_range st2 l2⟩
  · show nextWatermark st l = some (e.Timestamp - 5000)
    exact hwm
  · obtain ⟨tl, htl, hprop⟩ := processList_events_append (nextWatermark st l) l.reverse
      { events := st.events.getD [], latestErr := st.eventsLatestErrorMessage }
    refine ⟨tl, ?_, ?_⟩
    · show some ((l.reverse.foldl (processEvent (nextWatermark st l))
        { events := st.events.getD [],
          latestErr := st.eventsLatestErrorMessage }).events) = _
      rw [htl]
    · intro ev hev
      obtain ⟨⟨t, hwt, hle⟩, hnot⟩ := hprop ev hev
      rw [hwm] at hwt
      cases hwt
      exact ⟨hle, fun le hle2 => hnot le hle2⟩

/-- Witness for C7: a concrete first call on a fresh stack sets the
watermark 5000 ms before the stack-level `CREATE_IN_PROGRESS` event. -/
theorem first_call_watermark_and_filter_witness :
    (getStackEvents { name := "A", dependencies := [], status := Status.deploying }
        [{ EventId := "e0", Timestamp := 10000,
           ResourceType := some "AWS::CloudFormation::Stack",
           ResourceStatus := some "CREATE_IN_PROGRESS",
           ResourceStatusReason := none,
           LogicalResourceId := some "S" }]).eventsFirstEventAt = some 5000 :=
  (first_call_watermark_and_filter
    { name := "A", dependencies := [], status := Status.deploying }
    [{ EventId := "e0", Timestamp := 10000,
       ResourceType := some "AWS::CloudFormation::Stack",
       ResourceStatus := some "CREATE_IN_PROGRESS",
       ResourceStatusReason := none,
       LogicalResourceId := some "S" }]
    { EventId := "e0", Timestamp := 10000,
      ResourceType := some "AWS::CloudFormation::Stack",
      ResourceStatus := some "CREATE_IN_PROGRESS",
      ResourceStatusReason := none,
      LogicalResourceId := some "S" }
    rfl (by decide)).1

/-! ### Claim C8 -/

/-- Counterexample to C8 as stated: the first appended failure event
(`e1`, `CREATE_FAILED`) has no `ResourceStatusReason`, and the later
failure event `e2` then overwrites `eventsLatestErrorMessage` with
`"boom"` — so the field does not hold the reason of the *first* appended
failure event and first-write-wins does not hold as claimed. -/
theorem first_failure_reason_overwritten :
    (getStackEvents { name := "A", dependencies := [], status := Status.deploying }
        [{ EventId := "e2", Timestamp := 12000, ResourceType := some "AWS::X::Y",
           ResourceStatus := some "UPDATE_FAILED", ResourceStatusReason := some "boom",
           LogicalResourceId := some "R2" },
         { EventId := "e1", Timestamp := 11000, ResourceType := some "AWS::X::Y",
           ResourceStatus := some "CREATE_FAILED", ResourceStatusReason := none,
           LogicalResourceId := some "R1" },
         { EventId := "e0", Timestamp := 10000,
           ResourceType := some "AWS::CloudFormation::Stack",
           ResourceStatus := some "CREATE_IN_PROGRESS", ResourceStatusReason := none,
           LogicalResourceId := some "S" }]).eventsLatestErrorMessage = some "boom"
    ∧ ((getStackEvents { name := "A", dependencies := [], status := Status.deploying }
        [{ EventId := "e2", Timestamp := 12000, ResourceType := some "AWS::X::Y",
           ResourceStatus := some "UPDATE_FAILED", ResourceStatusReason := some "boom",
           LogicalResourceId := some "R2" },
         { EventId := "e1", Timestamp := 11000, ResourceType := some "AWS::X::Y",
           ResourceStatus := some "CREATE_FAILED", ResourceStatusReason := none,
           LogicalResourceId := some "R1" },
         { EventId := "e0", Timestamp := 10000,
           ResourceType := some "AWS::CloudFormation::Stack",
           ResourceStatus := some "CREATE_IN_PROGRESS", ResourceStatusReason := none,
           LogicalResourceId := some "S" }]).events.getD []).map
        (fun ev => (ev.eventId, ev.resourceStatus, ev.resourceStatusReason)) =
      [("e0", some "CREATE_IN_PROGRESS", none),
       ("e1", some "CREATE_FAILED", none),
       ("e2", some "UPDATE_FAILED", some "boom")]
    ∧ isFailureStatus (some "CREATE_FAILED") = true := by
  refine ⟨by decide, by decide, by decide⟩

theorem processList_latestErr_of_truthy (w : Option Int) :
    ∀ (l : List RawEvent) (acc : EvAcc), optStrTruthy acc.latestErr = true →
      (l.foldl (processEvent w) acc).latestErr = acc.latestErr := by
  intro l
  induction l with
  | nil =>
    intro acc _
    rfl
  | cons x xs ih =>
    intro acc h
    rw [List.foldl_cons]
    have hx : (processEvent w acc x).latestErr = acc.latestErr := by
      rw [processEvent_eq]
      split
      · simp [h]
      · rfl
    rw [ih (processEvent w acc x) (by rw [hx]; exact h), hx]

/-- Claim C8, amended: each newly appended failure-or-rollback event writes
its `ResourceStatusReason` into `eventsLatestErrorMessage` as long as the
current value is still absent or empty; once the field holds a non-empty
reason, no later fetch or event overwrites it.  First-write-wins therefore
holds only from the first appended failure event whose reason is a
defined, non-empty string — not from the first failure event per se. -/
theorem latest_error_first_nonempty_wins (st : StackState) (l : List RawEvent)
    (w : Option Int) (acc : EvAcc) (e : RawEvent) :
    (optStrTruthy st.eventsLatestErrorMessage = true →
      (getStackEvents st l).eventsLatestErrorMessage = st.eventsLatestErrorMessage)
    ∧ (optStrTruthy acc.latestErr = false →
        eventInRange w e = true →
        acc.events.all (fun le => !(le.eventId == e.EventId)) = true →
        isFailureStatus e.ResourceStatus = true →
        (processEvent w acc e).latestErr = e.ResourceStatusReason) := by
  constructor
  · intro h
    show (l.reverse.foldl (processEvent (nextWatermark st l))
      { events := st.events.getD [],
        latestErr := st.eventsLatestErrorMessage }).latestErr = st.eventsLatestErrorMessage
    exact processList_latestErr_of_truthy (nextWatermark st l) l.reverse
      { events := st.events.getD [], latestErr := st.eventsLatestErrorMessage } h
  · intro hfalse hr hnl hfail
    rw [processEvent_eq, if_pos (by rw [hr, hnl]; rfl)]
    simp [hfail, hfalse]

/-- Witness for the amended C8: once `eventsLatestErrorMessage` holds the
non-empty reason `"first"`, re-fetching a log containing a new failure
event with reason `"boom"` leaves it at `"first"`. -/
theorem latest_error_first_nonempty_wins_witness :
    (getStackEvents
        { name := "A", dependencies := [], status := Status.deploying,
          eventsLatestErrorMessage := some "first", eventsFirstEventAt := some 0 }
        [{ EventId := "e9", Timestamp := 11000, ResourceType := some "AWS::X::Y",
           ResourceStatus := some "CREATE_FAILED", ResourceStatusReason := some "boom",
           LogicalResourceId := some "R1" }]).eventsLatestErrorMessage = some "first" :=
  (latest_error_first_nonempty_wins
    { name := "A", dependencies := [], status := Status.deploying,
      eventsLatestErrorMessage := some "first", eventsFirstEventAt := some 0 }
    [{ EventId := "e9", Timestamp := 11000, ResourceType := some "AWS::X::Y",
       ResourceStatus := some "CREATE_FAILED", ResourceStatusReason := some "boom",
       LogicalResourceId := some "R1" }]
    none { events := [], latestErr := none }
    { EventId := "e9", Timestamp := 11000, ResourceType := some "AWS::X::Y",
      ResourceStatus := some "CREATE_FAILED", ResourceStatusReason := some "boom",
      LogicalResourceId := some "R1" }).1 (by decide)

end SstCdk
